import Mathlib

/-!
Verification of the secure file ingestion and content-addressed storage
pipeline of the Intelcobro backend, shallowly embedded from
src/infrastructure/web/middlewares/FileUploadMiddleware.ts and the route
ordering in src/infrastructure/web/routes/formRoutes.ts.

File contents are modelled as lists of byte values (Nat), the filesystem as
a partial map from path strings to file contents, and the fallible reads
performed by the middleware as Except values.
-/

namespace Intelcobro

/-- A filesystem: maps a path to the bytes stored there, none if absent. -/
abbrev Fs := String → Option (List Nat)

/-- One uploaded file as seen by the middleware: client-declared name and
MIME type, the byte count multer recorded, the raw bytes, and the temp path
multer wrote them to. Mirrors the fields of Express.Multer.File used by
FileUploadMiddleware. -/
structure FileRec where
  originalname : String
  mimetype : String
  size : Nat
  content : List Nat
  tempPath : String
deriving DecidableEq, Repr

/-- Splits a character list at every separator matching p; models the
JavaScript String.prototype.split with a one-character (or one-class)
separator, as used on filenames and df output. -/
def splitOnPred (p : Char → Bool) : List Char → List (List Char)
  | [] => [[]]
  | c :: rest =>
    let r := splitOnPred p rest
    if p c then [] :: r
    else
      match r with
      | [] => [[c]]
      | g :: gs => (c :: g) :: gs

/-- Models filename.split(".") over the underlying characters. -/
def strSplitOnDot (s : String) : List String :=
  (splitOnPred (· == '.') s.data).map String.mk

/-- ASCII lower-casing of one character; the names and MIME types the
middleware lower-cases are ASCII. -/
def charToLower (c : Char) : Char :=
  if 65 ≤ c.toNat ∧ c.toNat ≤ 90 then Char.ofNat (c.toNat + 32) else c

/-- Models String.prototype.toLowerCase over the underlying characters. -/
def strToLower (s : String) : String := String.mk (s.data.map charToLower)

/-- Models String.prototype.startsWith over the underlying characters. -/
def strStartsWith (s pre : String) : Bool := List.isPrefixOf pre.data s.data

/-- Whether pat occurs at the head of hay. -/
def matchesAt {α : Type} [BEq α] : List α → List α → Bool
  | _, [] => true
  | [], _ :: _ => false
  | a :: as, b :: bs => a == b && matchesAt as bs

/-- Whether pat occurs somewhere in hay; models Buffer.indexOf(pat) !== -1
and String.prototype.includes. -/
def containsSeq {α : Type} [BEq α] (hay pat : List α) : Bool :=
  match hay with
  | [] => pat.isEmpty
  | _ :: rest => matchesAt hay pat || containsSeq rest pat

/-- Models Buffer.alloc(32) followed by fs.readSync(fd, buffer, 0, 32, 0) in
FileUploadMiddleware.validateFileContent: the first 32 bytes of the file,
zero-padded to length 32 when the file is shorter. -/
def readFirst32 (c : List Nat) : List Nat :=
  c.take 32 ++ List.replicate (32 - c.length) 0

/-- The magicBytes table of FileUploadMiddleware.validateFileContent: the
registered byte-signature lists per declared MIME type. -/
def magicBytesFor (mime : String) : Option (List (List Nat)) :=
  if mime = "application/pdf" then
    some [[0x25, 0x50, 0x44, 0x46]]
  else if mime = "image/jpeg" then
    some [[0xFF, 0xD8, 0xFF, 0xE0], [0xFF, 0xD8, 0xFF, 0xE1]]
  else if mime = "image/png" then
    some [[0x89, 0x50, 0x4E, 0x47, 0x0D, 0x0A, 0x1A, 0x0A]]
  else if mime = "audio/mpeg" then
    some [[0xFF, 0xFB], [0x49, 0x44, 0x33]]
  else if mime = "audio/wav" then
    some [[0x52, 0x49, 0x46, 0x46]]
  else
    none

/-- The signature comparison of validateFileContent on successfully read
bytes: no registered signatures means pass; otherwise some registered
signature must equal buffer.subarray(0, magic.length). -/
def checkMagicBytes (mime : String) (content : List Nat) : Bool :=
  match magicBytesFor mime with
  | none => true
  | some sigs => sigs.any (fun m => (readFirst32 content).take m.length == m)

/-- FileUploadMiddleware.validateFileContent: reading the leading bytes may
fail (the try/catch around openSync/readSync); a failed read returns false,
a successful read is checked against the magic-byte table. -/
def validateFileContent (mime : String) (read : Except String (List Nat)) : Bool :=
  match read with
  | .error _ => false
  | .ok content => checkMagicBytes mime content

/-- One entry of the FILE_CONFIGS table: allowed extensions, allowed
declared MIME types, and the per-file byte ceiling. -/
structure FileTypeConfig where
  extensions : List String
  mimeTypes : List String
  maxSize : Nat
  description : String
deriving DecidableEq, Repr

/-- FILE_CONFIGS.resume. -/
def resumeConfig : FileTypeConfig :=
  { extensions := [".pdf", ".doc", ".docx"]
    mimeTypes := ["application/pdf", "application/msword",
      "application/vnd.openxmlformats-officedocument.wordprocessingml.document"]
    maxSize := 5 * 1024 * 1024
    description := "CV/Resume (PDF, DOC, DOCX)" }

/-- FILE_CONFIGS.image. -/
def imageConfig : FileTypeConfig :=
  { extensions := [".jpg", ".jpeg", ".png", ".gif", ".webp"]
    mimeTypes := ["image/jpeg", "image/png", "image/gif", "image/webp"]
    maxSize := 2 * 1024 * 1024
    description := "Imagen (JPG, PNG, GIF, WEBP)" }

/-- FILE_CONFIGS.audio. -/
def audioConfig : FileTypeConfig :=
  { extensions := [".mp3", ".wav", ".ogg", ".webm", ".m4a"]
    mimeTypes := ["audio/mpeg", "audio/wav", "audio/ogg", "audio/webm",
      "audio/mp4"]
    maxSize := 10 * 1024 * 1024
    description := "Audio (MP3, WAV, OGG, WEBM, M4A)" }

/-- FILE_CONFIGS.document. -/
def documentConfig : FileTypeConfig :=
  { extensions := [".pdf", ".doc", ".docx", ".txt", ".rtf"]
    mimeTypes := ["application/pdf", "application/msword",
      "application/vnd.openxmlformats-officedocument.wordprocessingml.document",
      "text/plain", "application/rtf"]
    maxSize := 10 * 1024 * 1024
    description := "Documento (PDF, DOC, DOCX, TXT, RTF)" }

/-- The FILE_CONFIGS record, as a lookup by category name. -/
def FILE_CONFIGS (category : String) : Option FileTypeConfig :=
  if category = "resume" then some resumeConfig
  else if category = "image" then some imageConfig
  else if category = "audio" then some audioConfig
  else if category = "document" then some documentConfig
  else none

/-- Models Node path.extname for plain file names: the suffix from the last
dot, "" when the name has no dot. -/
def extname (name : String) : String :=
  match strSplitOnDot name with
  | [] => ""
  | [_] => ""
  | parts => "." ++ parts.getLastD ""

/-- One character of the dangerousChars class
[<>:"/\\|?*\x00-\x1f] tested by performSecurityChecks. -/
def dangerousChar (c : Char) : Bool :=
  c == '<' || c == '>' || c == ':' || c == '"' || c == '/' || c == '\\' ||
    c == '|' || c == '?' || c == '*' || decide (c.toNat ≤ 0x1f)

/-- The suspiciousExtensions denylist of performSecurityChecks. -/
def suspiciousExtensions : List String :=
  [".exe", ".bat", ".cmd", ".scr", ".pif", ".com"]

/-- FileUploadMiddleware.performSecurityChecks: the accumulated error list.
The check is valid iff this list is empty. It inspects only the original
file name and the file.size field as visible at the call site, never the
file bytes. size is an Option because the only caller is the multer
fileFilter, which runs before the storage engine has written the stream, so
file.size is undefined (none) there; the strict === 0 comparison is false
for undefined, exactly as `none = some 0` is false here. -/
def performSecurityChecks (originalname : String) (size : Option Nat) : List String :=
  (if originalname.toList.any dangerousChar then
    ["Nombre de archivo contiene caracteres no permitidos"] else []) ++
  (if 255 < originalname.length then
    ["Nombre de archivo demasiado largo"] else []) ++
  (if (let parts := strSplitOnDot originalname
      2 < parts.length &&
        parts.any (fun part => suspiciousExtensions.contains ("." ++ strToLower part)))
    then ["Archivo con extensión ejecutable no permitido"] else []) ++
  (if size = some 0 then ["El archivo está vacío"] else [])

/-- FileUploadMiddleware.createFileFilter: extension membership, then MIME
membership, then the security checks; true means the file is accepted.
multer invokes this callback before the storage engine records file.size,
so the security checks see an undefined (none) size. -/
def createFileFilter (config : FileTypeConfig) (f : FileRec) : Bool :=
  let extension := strToLower (extname f.originalname)
  let mt := strToLower f.mimetype
  if ¬ config.extensions.contains extension then false
  else if ¬ config.mimeTypes.contains mt then false
  else (performSecurityChecks f.originalname none).isEmpty

/-- Models the JavaScript test mimetype.includes("word"). -/
def includesWord (mimetype : String) : Bool :=
  containsSeq mimetype.data "word".data

/-- The category-subdirectory selection of moveFileToFinalLocation. -/
def selectSubdir (mimetype : String) : String :=
  if strStartsWith mimetype "image/" then "images"
  else if strStartsWith mimetype "audio/" then "audio"
  else if mimetype = "application/pdf" || includesWord mimetype then "resumes"
  else "documents"

/-- The upload root (UPLOAD_DIR defaults to "uploads"). -/
def uploadDir : String := "uploads"

/-- The deterministic final path of moveFileToFinalLocation:
uploadDir/subdir/<hash><extension>. -/
def mkFinalPath (hash ext mimetype : String) : String :=
  uploadDir ++ "/" ++ selectSubdir mimetype ++ "/" ++ hash ++ ext

/-- FileUploadMiddleware.moveFileToFinalLocation: if the final path is
already occupied the temp file is unlinked (duplicate), otherwise the temp
file is renamed onto the final path. Returns the new filesystem and the
final path. -/
def moveFileToFinalLocation (fs : Fs) (tempPath hash originalname mimetype : String) :
    Fs × String :=
  let finalPath := mkFinalPath hash (extname originalname) mimetype
  match fs finalPath with
  | some _ => (fun p => if p = tempPath then none else fs p, finalPath)
  | none =>
    (fun p =>
      if p = finalPath then fs tempPath
      else if p = tempPath then none
      else fs p, finalPath)

/-- FileUploadMiddleware.cleanupTempFiles: unlink the temp path of every
file of the request, skipping paths that no longer exist. -/
def cleanupTempFiles (files : List FileRec) (fs : Fs) : Fs :=
  fun p => if files.any (fun g => g.tempPath == p) then none else fs p

/-- FileUploadMiddleware.calculateTotalSize on the flattened file list. -/
def calculateTotalSize (files : List FileRec) : Nat :=
  (files.map (·.size)).sum

/-- Reading a file from the filesystem, as an Except mirroring the
try/catch around openSync/readSync/createReadStream. -/
def readFileFs (fs : Fs) (p : String) : Except String (List Nat) :=
  match fs p with
  | some c => Except.ok c
  | none => Except.error "ENOENT"

/-- Events observable during a request, used to state ordering and
cost-avoidance properties. -/
inductive Ev where
  | filtered (name : String) (ok : Bool)
  | hashed (name : String)
  | magicChecked (name : String) (ok : Bool)
  | moved (name : String)
  | scanned (name : String) (ok : Bool)
  | cleanedUp
deriving DecidableEq, Repr

/-- How multer rejections surface after handleMulterError. -/
inductive MulterCode where
  | filterError
  | fileTooLarge
deriving DecidableEq, Repr

/-- Terminal outcome of one upload request. -/
inductive Outcome where
  | accepted
  | multerRejected (code : MulterCode)
  | totalSizeRejected
  | invalidContent
  | insufficientStorage
  | maliciousFile
deriving DecidableEq, Repr

/-- FileUploadMiddleware.processUploadedFiles: for each file in order, hash
its bytes (reading the temp file; a failed read aborts with no event, as the
stream rejection is thrown), then validate its content against the
magic-byte table (throwing ValidationException on failure, which stops the
loop), then move it to its content-addressed final location.
Returns the filesystem, the event trace, and whether the loop completed. -/
def processFilesLoop (h : List Nat → String) (fs : Fs) :
    List FileRec → Fs × List Ev × Bool
  | [] => (fs, [], true)
  | f :: rest =>
    match fs f.tempPath with
    | none => (fs, [], false)
    | some content =>
      if checkMagicBytes f.mimetype content then
        let step := moveFileToFinalLocation fs f.tempPath (h content)
          f.originalname f.mimetype
        let r := processFilesLoop h step.1 rest
        (r.1,
          Ev.hashed f.originalname ::
            Ev.magicChecked f.originalname true ::
              Ev.moved f.originalname :: r.2.1,
          r.2.2)
      else
        (fs, [Ev.hashed f.originalname, Ev.magicChecked f.originalname false],
          false)

/-- The single-file wrapMulter path (uploadResume/uploadImage/uploadAudio):
multer writes the stream to the temp path, applies the file filter and the
per-file size limit, then the wrapper runs processUploadedFiles, cleaning up
the temp artifacts of the request on every error path. -/
def uploadSingleRun (h : List Nat → String) (config : FileTypeConfig)
    (f : FileRec) (fs : Fs) : Fs × List Ev × Outcome :=
  let fsW : Fs := fun p => if p = f.tempPath then some f.content else fs p
  if createFileFilter config f then
    if config.maxSize < f.size then
      (cleanupTempFiles [f] fsW, [Ev.filtered f.originalname true, Ev.cleanedUp],
        .multerRejected .fileTooLarge)
    else
      let r := processFilesLoop h fsW [f]
      if r.2.2 then (r.1, Ev.filtered f.originalname true :: r.2.1, .accepted)
      else
        (cleanupTempFiles [f] r.1,
          (Ev.filtered f.originalname true :: r.2.1) ++ [Ev.cleanedUp],
          .invalidContent)
  else
    (cleanupTempFiles [f] fsW, [Ev.filtered f.originalname false, Ev.cleanedUp],
      .multerRejected .filterError)

/-- The multi-field wrapMulter path (uploadMultiple) after multer accepted
the batch into temp storage: the aggregate-size guard runs first and rejects
the whole batch, then processUploadedFiles; every error path cleans up the
temp artifacts of all files of the batch. The guard sits inside the
source's `if (maxTotalSize && req.files)` JavaScript-truthiness test, so a
ceiling of 0 disables it entirely. -/
def wrapMulterBatch (h : List Nat → String) (maxTotalSize : Nat)
    (files : List FileRec) (fs : Fs) : Fs × List Ev × Outcome :=
  if maxTotalSize ≠ 0 ∧ maxTotalSize < calculateTotalSize files then
    (cleanupTempFiles files fs, [Ev.cleanedUp], .totalSizeRejected)
  else
    let r := processFilesLoop h fs files
    if r.2.2 then (r.1, r.2.1, .accepted)
    else (cleanupTempFiles files r.1, r.2.1 ++ [Ev.cleanedUp], .invalidContent)

/-- A JavaScript number that may be NaN (none), as produced by parseInt. -/
abbrev JsNum := Option Nat

/-- JavaScript x < m where x may be NaN: NaN comparisons are false. -/
def jsLtNat (x : JsNum) (m : Nat) : Bool :=
  match x with
  | none => false
  | some k => decide (k < m)

/-- Models JavaScript parseInt on a df field: parses the leading decimal
digits, NaN (none) when there are none. -/
def parseJsInt (s : String) : JsNum :=
  let digits := s.toList.takeWhile (·.isDigit)
  if digits.isEmpty then none
  else some (digits.foldl (fun n c => n * 10 + (c.toNat - 48)) 0)

/-- FileUploadMiddleware.getFreeDiskSpace, Unix branch: on exec failure the
promise rejects; otherwise line 1 of the df output is split on whitespace
runs and field 3 (in KB) is scaled by 1024; a missing line or field throws,
which also rejects the promise. -/
def getFreeDiskSpaceUnix (execResult : Except String String) :
    Except String JsNum :=
  match execResult with
  | .error e => .error e
  | .ok stdout =>
    let lines := (splitOnPred (· == '\n') stdout.data).map String.mk
    match lines.get? 1 with
    | none => .error "Could not parse Unix disk space output"
    | some dataLine =>
      if dataLine = "" then .error "Could not parse Unix disk space output"
      else
        let parts :=
          ((splitOnPred (·.isWhitespace) dataLine.data).map String.mk).filter
            (· ≠ "")
        match parts.get? 3 with
        | none => .error "Could not extract disk space values from Unix output"
        | some p3 =>
          if p3 = "" then
            .error "Could not extract disk space values from Unix output"
          else .ok ((parseJsInt p3).map (· * 1024))

/-- FileUploadMiddleware.checkDiskSpace: statSync plus the free-space probe
run inside a try/catch whose catch advances the request (fail-open); only a
successfully probed value strictly below minFreeSpaceGB * 1024^3 blocks with
the 507 response. Returns true when the request proceeds. -/
def checkDiskSpaceMw (minFreeSpaceGB : Nat) (statOk : Bool)
    (probe : Except String JsNum) : Bool :=
  if ¬ statOk then true
  else
    match probe with
    | .error _ => true
    | .ok free =>
      if jsLtNat free (minFreeSpaceGB * 1024 * 1024 * 1024) then false
      else true

/-- Byte values of the EICAR test fragment appearing literally in
performAntivirusScan. -/
def eicarBytes : List Nat :=
  [88, 53, 79, 33, 80, 37, 64, 65, 80, 91, 52, 92, 80, 90, 88, 53, 52, 40,
    80, 94, 41, 55, 67, 67, 41, 55, 125, 36, 69, 73, 67, 65, 82]

/-- Byte values of the DOS executable header pattern "MZ". -/
def mzBytes : List Nat := [77, 90]

/-- The maliciousPatterns list of performAntivirusScan. -/
def maliciousPatterns : List (List Nat) := [eicarBytes, mzBytes]

/-- Models Buffer.alloc(1024) + readSync in performAntivirusScan: the first
1024 bytes, zero-padded. -/
def readFirst1024 (c : List Nat) : List Nat :=
  c.take 1024 ++ List.replicate (1024 - c.length) 0

/-- FileUploadMiddleware.performAntivirusScan: a failed read of the scan
window returns false (treat as malicious); otherwise the window is searched
for the malicious patterns and the scan passes iff none occurs. -/
def performAntivirusScan (read : Except String (List Nat)) : Bool :=
  match read with
  | .error _ => false
  | .ok content =>
    let buffer := readFirst1024 content
    !(maliciousPatterns.any (fun pat => containsSeq buffer pat))

/-- FileUploadMiddleware.antivirusScan inner loop: scan each file of the
request; the first unsafe file cleans up the temp artifacts of all files of
the request and rejects. -/
def antivirusGo (allFiles : List FileRec) (fs : Fs) :
    List FileRec → Fs × List Ev × Bool
  | [] => (fs, [], true)
  | f :: rest =>
    if performAntivirusScan (readFileFs fs f.tempPath) then
      let r := antivirusGo allFiles fs rest
      (r.1, Ev.scanned f.originalname true :: r.2.1, r.2.2)
    else
      (cleanupTempFiles allFiles fs, [Ev.scanned f.originalname false,
        Ev.cleanedUp], false)

/-- The antivirusScan middleware over the request's files. -/
def antivirusScanMw (files : List FileRec) (fs : Fs) : Fs × List Ev × Bool :=
  antivirusGo files fs files

/-- The POST /api/forms/job-application middleware chain of
createFormRoutes, in source order. -/
def jobApplicationStages : List String :=
  ["rateLimitByField", "uploadResume", "validateBody", "validateXSS",
    "sanitize", "checkDiskSpace", "antivirusScan", "controller"]

/-- A single-file upload request end to end, following the
job-application route order: the upload middleware (multer + wrapMulter),
then the disk capacity guard, then the antivirus scan. The 507 path of the
disk guard returns without touching files; a flagged scan cleans up and
rejects. -/
def handleSingleRequest (h : List Nat → String) (config : FileTypeConfig)
    (minGB : Nat) (statOk : Bool) (probe : Except String JsNum)
    (f : FileRec) (fs : Fs) : Fs × List Ev × Outcome :=
  let r := uploadSingleRun h config f fs
  if r.2.2 = .accepted then
    if checkDiskSpaceMw minGB statOk probe then
      let s := antivirusScanMw [f] r.1
      if s.2.2 then (s.1, r.2.1 ++ s.2.1, .accepted)
      else (s.1, r.2.1 ++ s.2.1, .maliciousFile)
    else (r.1, r.2.1, .insufficientStorage)
  else r

lemma magicBytesFor_wf (mime : String) (sigs : List (List Nat))
    (hs : magicBytesFor mime = some sigs) :
    ∀ m ∈ sigs, m.length ≤ 32 ∧ (0 : Nat) ∉ m := by
  unfold magicBytesFor at hs
  repeat' split at hs
  all_goals first
    | (cases hs; decide)
    | exact absurd hs (by simp)

lemma take_readFirst32_eq (c m : List Nat) (h32 : m.length ≤ 32)
    (hnz : (0 : Nat) ∉ m) :
    ((readFirst32 c).take m.length = m) ↔ (c.take m.length = m) := by
  unfold readFirst32
  rcases le_or_lt m.length c.length with h | h
  · have hmin : m.length ≤ (c.take 32).length := by
      simp [List.length_take]
      omega
    rw [List.take_append_eq_append_take, List.take_take,
      Nat.min_eq_left h32, Nat.sub_eq_zero_of_le hmin, List.take_zero,
      List.append_nil]
  · have htc : c.take 32 = c := List.take_of_length_le (by omega)
    have hrepl : (List.replicate (32 - c.length) 0).take (m.length - c.length)
        = List.replicate (m.length - c.length) (0 : Nat) := by
      rw [List.take_replicate]
      congr 1
      omega
    have hfull : (c.take 32 ++ List.replicate (32 - c.length) 0).take m.length
        = c ++ List.replicate (m.length - c.length) 0 := by
      rw [List.take_append_eq_append_take, htc,
        List.take_of_length_le (le_of_lt h), hrepl]
    rw [hfull]
    constructor
    · intro heq
      exfalso
      apply hnz
      rw [← heq]
      have : (0 : Nat) ∈ List.replicate (m.length - c.length) (0 : Nat) := by
        rw [List.mem_replicate]
        exact ⟨by omega, rfl⟩
      exact List.mem_append_right c this
    · intro heq
      exfalso
      have hc : c.take m.length = c := List.take_of_length_le (le_of_lt h)
      rw [hc] at heq
      have := congrArg List.length heq
      omega

lemma checkMagicBytes_iff (mime : String) (content : List Nat)
    (sigs : List (List Nat)) (hs : magicBytesFor mime = some sigs) :
    checkMagicBytes mime content = true ↔
      ∃ m ∈ sigs, content.take m.length = m := by
  unfold checkMagicBytes
  rw [hs]
  rw [List.any_eq_true]
  constructor
  · rintro ⟨m, hm, hb⟩
    refine ⟨m, hm, ?_⟩
    have hwf := magicBytesFor_wf mime sigs hs m hm
    exact (take_readFirst32_eq content m hwf.1 hwf.2).mp (by
      exact eq_of_beq hb)
  · rintro ⟨m, hm, hb⟩
    refine ⟨m, hm, ?_⟩
    have hwf := magicBytesFor_wf mime sigs hs m hm
    exact beq_iff_eq.mpr ((take_readFirst32_eq content m hwf.1 hwf.2).mpr hb)

/-- The double-ingest experiment behind the idempotent-storage property:
multer writes byte-identical content to two temp paths in two requests, and
each request moves it to its content-addressed final location. Returns the
final filesystem and the two returned final paths. -/
def ingestTwice (h : List Nat → String) (fs : Fs) (content : List Nat)
    (name mime t1 t2 : String) : Fs × String × String :=
  let fsA : Fs := fun p => if p = t1 then some content else fs p
  let r1 := moveFileToFinalLocation fsA t1 (h content) name mime
  let fsB : Fs := fun p => if p = t2 then some content else r1.1 p
  let r2 := moveFileToFinalLocation fsB t2 (h content) name mime
  (r2.1, r1.2, r2.2)

/-- A declared PDF whose bytes do not start with the PDF signature. -/
def cexFile : FileRec :=
  { originalname := "a.pdf", mimetype := "application/pdf", size := 4,
    content := [0, 0, 0, 0], tempPath := "uploads/temp/t" }

/-- A temp store holding exactly cexFile's bytes. -/
def cexFs : Fs :=
  fun p => if p = "uploads/temp/t" then some [0, 0, 0, 0] else none

/-- A concrete stand-in for the SHA-256 hex digest function. -/
def cexHash : List Nat → String := fun _ => "h"

/-- A zero-byte upload declared audio/ogg, as received on the voice-message
route (uploadAudio with no antivirus stage). -/
def emptyOggFile : FileRec :=
  { originalname := "a.ogg", mimetype := "audio/ogg", size := 0,
    content := [], tempPath := "uploads/temp/t0" }

/-- A well-formed one-file batch: a 4-byte PDF in temp storage. -/
def batchPdfFile : FileRec :=
  { originalname := "a.pdf", mimetype := "application/pdf", size := 4,
    content := [0x25, 0x50, 0x44, 0x46], tempPath := "uploads/temp/t1" }

/-- The temp store after multer wrote that batch. -/
def batchPdfFs : Fs :=
  fun p => if p = "uploads/temp/t1" then some [0x25, 0x50, 0x44, 0x46]
    else none

lemma isEmpty_false_of_ne_nil {α : Type} (l : List α) (h : l ≠ []) :
    l.isEmpty = false := by
  cases l with
  | nil => exact absurd rfl h
  | cons a t => rfl

lemma cleanupTempFiles_mem (files : List FileRec) (fs : Fs) (f : FileRec)
    (hf : f ∈ files) : cleanupTempFiles files fs f.tempPath = none := by
  have hany : files.any (fun g => g.tempPath == f.tempPath) = true :=
    List.any_eq_true.mpr ⟨f, hf, by simp⟩
  simp [cleanupTempFiles, hany]

lemma uploadSingleRun_filter_false (h : List Nat → String)
    (config : FileTypeConfig) (f : FileRec) (fs : Fs)
    (hf : createFileFilter config f = false) :
    uploadSingleRun h config f fs =
      (cleanupTempFiles [f] (fun p => if p = f.tempPath then some f.content else fs p),
        [Ev.filtered f.originalname false, Ev.cleanedUp],
        .multerRejected .filterError) := by
  simp [uploadSingleRun, hf]

lemma uploadSingleRun_temp (h : List Nat → String) (config : FileTypeConfig)
    (f : FileRec) (fs : Fs)
    (hne : (uploadSingleRun h config f fs).2.2 ≠ Outcome.accepted) :
    (uploadSingleRun h config f fs).1 f.tempPath = none := by
  by_cases hflt : createFileFilter config f = true
  · by_cases hsz : config.maxSize < f.size
    · simp [uploadSingleRun, hflt, hsz]
      exact cleanupTempFiles_mem [f] _ f (by simp)
    · by_cases hloop : (processFilesLoop h
        (fun p => if p = f.tempPath then some f.content else fs p) [f]).2.2 = true
      · exfalso
        apply hne
        simp [uploadSingleRun, hflt, hsz, hloop]
      · simp [uploadSingleRun, hflt, hsz, hloop]
        exact cleanupTempFiles_mem [f] _ f (by simp)
  · simp [uploadSingleRun, hflt]
    exact cleanupTempFiles_mem [f] _ f (by simp)

lemma antivirusGo_temp (allFiles : List FileRec) (fs : Fs)
    (l : List FileRec) (f : FileRec) (hf : f ∈ allFiles)
    (hrej : (antivirusGo allFiles fs l).2.2 = false) :
    (antivirusGo allFiles fs l).1 f.tempPath = none := by
  induction l with
  | nil => simp [antivirusGo] at hrej
  | cons g rest ih =>
    by_cases hscan : performAntivirusScan (readFileFs fs g.tempPath) = true
    · simp only [antivirusGo, hscan] at hrej ⊢
      simp at hrej ⊢
      exact ih hrej
    · simp [antivirusGo, hscan]
      exact cleanupTempFiles_mem allFiles fs f hf

lemma processFilesLoop_cons_none (h : List Nat → String) (fs : Fs)
    (f : FileRec) (rest : List FileRec) (hc : fs f.tempPath = none) :
    processFilesLoop h fs (f :: rest) = (fs, [], false) := by
  simp [processFilesLoop, hc]

lemma processFilesLoop_cons_ok (h : List Nat → String) (fs : Fs)
    (f : FileRec) (rest : List FileRec) (c : List Nat)
    (hc : fs f.tempPath = some c)
    (hck : checkMagicBytes f.mimetype c = true) :
    processFilesLoop h fs (f :: rest) =
      ((processFilesLoop h (moveFileToFinalLocation fs f.tempPath (h c)
          f.originalname f.mimetype).1 rest).1,
        Ev.hashed f.originalname :: Ev.magicChecked f.originalname true ::
          Ev.moved f.originalname ::
            (processFilesLoop h (moveFileToFinalLocation fs f.tempPath (h c)
              f.originalname f.mimetype).1 rest).2.1,
        (processFilesLoop h (moveFileToFinalLocation fs f.tempPath (h c)
          f.originalname f.mimetype).1 rest).2.2) := by
  simp [processFilesLoop, hc, hck]

lemma processFilesLoop_cons_fail (h : List Nat → String) (fs : Fs)
    (f : FileRec) (rest : List FileRec) (c : List Nat)
    (hc : fs f.tempPath = some c)
    (hck : checkMagicBytes f.mimetype c = false) :
    processFilesLoop h fs (f :: rest) =
      (fs, [Ev.hashed f.originalname, Ev.magicChecked f.originalname false],
        false) := by
  simp [processFilesLoop, hc, hck]

/-- C1: For every uploaded file, if the declared MIME type has a registered
byte-signature list, content validation passes iff the file's leading bytes
equal one of the registered prefixes; in particular a declared
application/pdf file whose first four bytes are not 25 50 44 46 is rejected;
a declared MIME type with no registered signature passes unconditionally. -/
theorem magic_byte_verification_contract :
    (∀ (mime : String) (content : List Nat),
      magicBytesFor mime = none →
        validateFileContent mime (Except.ok content) = true) ∧
    (∀ (mime : String) (content : List Nat) (sigs : List (List Nat)),
      magicBytesFor mime = some sigs →
        (validateFileContent mime (Except.ok content) = true ↔
          ∃ m ∈ sigs, content.take m.length = m)) ∧
    (∀ content : List Nat,
      content.take 4 ≠ [0x25, 0x50, 0x44, 0x46] →
        validateFileContent "application/pdf" (Except.ok content) = false) := by
  refine ⟨?_, ?_, ?_⟩
  · intro mime content h
    simp only [validateFileContent, checkMagicBytes, h]
  · intro mime content sigs h
    simpa only [validateFileContent] using checkMagicBytes_iff mime content sigs h
  · intro content hne
    have hiff := checkMagicBytes_iff "application/pdf" content
      [[0x25, 0x50, 0x44, 0x46]] (by decide)
    cases hv : validateFileContent "application/pdf" (Except.ok content) with
    | false => rfl
    | true =>
      exfalso
      have hx : checkMagicBytes "application/pdf" content = true := hv
      rcases hiff.mp hx with ⟨m, hm, hp⟩
      simp only [List.mem_singleton] at hm
      subst hm
      exact hne hp

/-- Witness for C1 at concrete inputs: an unregistered MIME type passes, and
a declared PDF with zero leading bytes is rejected. -/
theorem magic_byte_verification_contract_witness :
    validateFileContent "text/plain" (Except.ok [1, 2, 3]) = true ∧
    validateFileContent "application/pdf" (Except.ok [0, 0, 0, 0]) = false :=
  ⟨magic_byte_verification_contract.1 "text/plain" [1, 2, 3] (by decide),
   magic_byte_verification_contract.2.2 [0, 0, 0, 0] (by decide)⟩

/-- C5: The empty-file check is dead code at runtime: multer invokes the
file filter before the storage engine records file.size, so the undefined
size never compares equal to 0, and a zero-byte audio/ogg upload passes
the filter, is hashed, moved and accepted by the upload middleware — while
the size check written in performSecurityChecks would reject it had the
recorded size (some 0) been visible there. -/
theorem empty_file_check_dead_at_runtime :
    emptyOggFile.size = 0 ∧
    createFileFilter audioConfig emptyOggFile = true ∧
    (uploadSingleRun cexHash audioConfig emptyOggFile (fun _ => none)).2.2 =
      Outcome.accepted ∧
    performSecurityChecks emptyOggFile.originalname (some 0) ≠ [] := by
  refine ⟨?_, ?_, ?_, ?_⟩ <;> decide

/-- C6: A filename containing a path separator or a control character, or
longer than 255, or with more than one dot-delimited suffix one of which is
on the executable denylist, is rejected by the file filter whatever the
category configuration, declared MIME type, size or bytes; and the filter's
verdict never depends on the file bytes or temp path. -/
theorem filename_safety_content_independent :
    (∀ (config : FileTypeConfig) (f : FileRec),
      ((∃ c ∈ f.originalname.toList, c = '/' ∨ c = '\\' ∨ c.toNat ≤ 0x1f) ∨
        255 < f.originalname.length ∨
        (2 < (strSplitOnDot f.originalname).length ∧
          ∃ s ∈ (strSplitOnDot f.originalname).drop 1,
            ("." ++ strToLower s) ∈ suspiciousExtensions)) →
      createFileFilter config f = false) ∧
    (∀ (config : FileTypeConfig) (name mime tp tp' : String) (n : Nat)
      (c c' : List Nat),
      createFileFilter config ⟨name, mime, n, c, tp⟩ =
        createFileFilter config ⟨name, mime, n, c', tp'⟩) := by
  constructor
  · intro config f hbad
    simp only [createFileFilter]
    split
    · rfl
    · split
      · rfl
      · apply isEmpty_false_of_ne_nil
        rcases hbad with ⟨c, hc, hor⟩ | hlen | ⟨hparts, s, hs, hmem⟩
        · have hany : f.originalname.toList.any dangerousChar = true := by
            refine List.any_eq_true.mpr ⟨c, hc, ?_⟩
            simp only [dangerousChar, Bool.or_eq_true, beq_iff_eq,
              decide_eq_true_eq]
            rcases hor with h1 | h1 | h1
            · subst h1; tauto
            · subst h1; tauto
            · tauto
          simp only [performSecurityChecks]
          simp
          intro hall _
          exfalso
          rcases List.any_eq_true.mp hany with ⟨x, hx, hdx⟩
          rw [hall x hx] at hdx
          cases hdx
        · simp [performSecurityChecks, hlen]
        · simp [performSecurityChecks, hparts]
          intro _ _
          exact ⟨s, List.drop_subset 1 _ hs, hmem⟩
  · intro config name mime tp tp' n c c'
    rfl

/-- Witness for C6: a name containing a path separator is refused by the
resume filter even with valid PDF content, MIME type and size. -/
theorem filename_safety_content_independent_witness :
    createFileFilter resumeConfig
      { originalname := "a/b.pdf", mimetype := "application/pdf", size := 4,
        content := [0x25, 0x50, 0x44, 0x46], tempPath := "uploads/temp/t" } =
      false :=
  filename_safety_content_independent.1 resumeConfig
    { originalname := "a/b.pdf", mimetype := "application/pdf", size := 4,
      content := [0x25, 0x50, 0x44, 0x46], tempPath := "uploads/temp/t" }
    (Or.inl (by decide))

/-- C9: The disk capacity guard answers with the 507 blocking response
exactly when the free-space probe succeeded and running statSync succeeded
and the probed value is strictly below minFreeSpaceGB GiB; every failure of
the probe itself (exec error, missing df line or field) lets the request
proceed. -/
theorem disk_capacity_guard_fail_open :
    (∀ (minGB : Nat) (statOk : Bool) (probe : Except String JsNum),
      checkDiskSpaceMw minGB statOk probe = false ↔
        statOk = true ∧
          ∃ k, probe = .ok (some k) ∧ k < minGB * 1024 * 1024 * 1024) ∧
    (∀ (minGB : Nat) (statOk : Bool) (e : String),
      checkDiskSpaceMw minGB statOk (Except.error e) = true) ∧
    (∀ (minGB : Nat) (e : String),
      checkDiskSpaceMw minGB true (getFreeDiskSpaceUnix (Except.error e)) =
        true) := by
  refine ⟨?_, ?_, ?_⟩
  · intro minGB statOk probe
    cases statOk with
    | false => simp [checkDiskSpaceMw]
    | true =>
      cases probe with
      | error e => simp [checkDiskSpaceMw]
      | ok free =>
        cases free with
        | none => simp [checkDiskSpaceMw, jsLtNat]
        | some k =>
          by_cases hk : k < minGB * 1024 * 1024 * 1024
          · simp [checkDiskSpaceMw, jsLtNat, hk]
          · simp [checkDiskSpaceMw, jsLtNat, hk]
  · intro minGB statOk e
    cases statOk <;> simp [checkDiskSpaceMw]
  · intro minGB e
    simp [checkDiskSpaceMw, getFreeDiskSpaceUnix]

/-- Witness for C9: with 0 bytes free and a 1 GiB threshold the guard
blocks. -/
theorem disk_capacity_guard_fail_open_witness :
    checkDiskSpaceMw 1 true (Except.ok (some 0)) = false :=
  (disk_capacity_guard_fail_open.1 1 true (Except.ok (some 0))).mpr
    ⟨rfl, 0, rfl, by decide⟩

/-- C10: The content-inspection stages fail closed on read errors: a failed
read during magic-byte verification returns false, and a failed read during
the antivirus scan returns false, while the disk capacity guard is fail-open
on its own probe errors. -/
theorem content_inspection_fail_closed :
    (∀ (mime e : String), validateFileContent mime (Except.error e) = false) ∧
    (∀ e : String, performAntivirusScan (Except.error e) = false) ∧
    (∀ (minGB : Nat) (e : String),
      checkDiskSpaceMw minGB true (Except.error e) = true) := by
  refine ⟨fun _ _ => rfl, fun _ => rfl, fun minGB e => ?_⟩
  simp [checkDiskSpaceMw]

/-- Witness for C10 at concrete read errors. -/
theorem content_inspection_fail_closed_witness :
    validateFileContent "application/pdf" (Except.error "EACCES") = false ∧
    performAntivirusScan (Except.error "EACCES") = false :=
  ⟨content_inspection_fail_closed.1 "application/pdf" "EACCES",
   content_inspection_fail_closed.2.1 "EACCES"⟩

/-- C2: Ingesting byte-identical content twice in the same category returns
the same deterministic final path uploads/subdir/<hash><extension> both
times, leaves that content at exactly that one path, deletes both temp
files, and changes no other path of the store. -/
theorem content_addressed_storage_idempotent
    (h : List Nat → String) (fs : Fs) (content : List Nat)
    (name mime t1 t2 : String)
    (hP : fs (mkFinalPath (h content) (extname name) mime) = none)
    (ht1P : t1 ≠ mkFinalPath (h content) (extname name) mime)
    (ht2P : t2 ≠ mkFinalPath (h content) (extname name) mime)
    (ht12 : t1 ≠ t2) :
    (ingestTwice h fs content name mime t1 t2).2.1 =
        mkFinalPath (h content) (extname name) mime ∧
    (ingestTwice h fs content name mime t1 t2).2.2 =
        mkFinalPath (h content) (extname name) mime ∧
    (ingestTwice h fs content name mime t1 t2).1
        (mkFinalPath (h content) (extname name) mime) = some content ∧
    (ingestTwice h fs content name mime t1 t2).1 t1 = none ∧
    (ingestTwice h fs content name mime t1 t2).1 t2 = none ∧
    (∀ p, p ≠ mkFinalPath (h content) (extname name) mime → p ≠ t1 →
      p ≠ t2 → (ingestTwice h fs content name mime t1 t2).1 p = fs p) := by
  have h1P := Ne.symm ht1P
  have h2P := Ne.symm ht2P
  have h21 := Ne.symm ht12
  refine ⟨?_, ?_, ?_, ?_, ?_, ?_⟩
  · simp [ingestTwice, moveFileToFinalLocation, hP, ht1P, ht2P, ht12, h1P,
      h2P, h21]
  · simp [ingestTwice, moveFileToFinalLocation, hP, ht1P, ht2P, ht12, h1P,
      h2P, h21]
  · simp [ingestTwice, moveFileToFinalLocation, hP, ht1P, ht2P, ht12, h1P,
      h2P, h21]
  · simp [ingestTwice, moveFileToFinalLocation, hP, ht1P, ht2P, ht12, h1P,
      h2P, h21]
  · simp [ingestTwice, moveFileToFinalLocation, hP, ht1P, ht2P, ht12, h1P,
      h2P, h21]
  · intro p hp1 hp2 hp3
    simp [ingestTwice, moveFileToFinalLocation, hP, ht1P, ht2P, ht12, h1P,
      h2P, h21, hp1, hp2, hp3]

/-- Witness for C2 on a concrete double ingest of the same PDF bytes. -/
theorem content_addressed_storage_idempotent_witness :
    (ingestTwice (fun _ => "H") (fun _ => none) [1, 2] "a.pdf"
        "application/pdf" "uploads/temp/t1" "uploads/temp/t2").2.1 =
      mkFinalPath "H" (extname "a.pdf") "application/pdf" ∧
    (ingestTwice (fun _ => "H") (fun _ => none) [1, 2] "a.pdf"
        "application/pdf" "uploads/temp/t1" "uploads/temp/t2").2.2 =
      mkFinalPath "H" (extname "a.pdf") "application/pdf" ∧
    (ingestTwice (fun _ => "H") (fun _ => none) [1, 2] "a.pdf"
        "application/pdf" "uploads/temp/t1" "uploads/temp/t2").1
      (mkFinalPath "H" (extname "a.pdf") "application/pdf") = some [1, 2] ∧
    (ingestTwice (fun _ => "H") (fun _ => none) [1, 2] "a.pdf"
        "application/pdf" "uploads/temp/t1" "uploads/temp/t2").1
      "uploads/temp/t1" = none ∧
    (ingestTwice (fun _ => "H") (fun _ => none) [1, 2] "a.pdf"
        "application/pdf" "uploads/temp/t1" "uploads/temp/t2").1
      "uploads/temp/t2" = none :=
  have X := content_addressed_storage_idempotent (fun _ => "H")
    (fun _ => none) [1, 2] "a.pdf" "application/pdf" "uploads/temp/t1"
    "uploads/temp/t2" rfl (by decide) (by decide) (by decide)
  ⟨X.1, X.2.1, X.2.2.1, X.2.2.2.1, X.2.2.2.2.1⟩

/-- C3 counterexample: processUploadedFiles hashes a file before checking
its magic bytes, so this declared PDF with invalid leading bytes is hashed
even though its content verification fails and the request is rejected —
refuting the claim that no file failing those checks is ever hashed. -/
theorem hash_ordering_counterexample :
    Ev.hashed "a.pdf" ∈ (processFilesLoop cexHash cexFs [cexFile]).2.1 ∧
    checkMagicBytes cexFile.mimetype cexFile.content = false ∧
    (processFilesLoop cexHash cexFs [cexFile]).2.2 = false := by
  refine ⟨?_, ?_, ?_⟩ <;> decide

/-- C3 amended: the hash is computed after the extension/MIME filter passes
but before magic-byte verification and before the malware scan: every file
whose magic bytes get checked was hashed in the same loop iteration first, a
file rejected by the filter is never hashed, and the antivirus scan
middleware runs after the upload middleware in the job-application route. -/
theorem hash_computed_before_content_checks :
    (∀ (h : List Nat → String) (fs : Fs) (files : List FileRec)
      (name : String) (b : Bool),
      Ev.magicChecked name b ∈ (processFilesLoop h fs files).2.1 →
      Ev.hashed name ∈ (processFilesLoop h fs files).2.1) ∧
    (∀ (h : List Nat → String) (config : FileTypeConfig) (f : FileRec)
      (fs : Fs), createFileFilter config f = false →
      ∀ n, Ev.hashed n ∉ (uploadSingleRun h config f fs).2.1) ∧
    jobApplicationStages.indexOf "uploadResume" <
      jobApplicationStages.indexOf "antivirusScan" := by
  refine ⟨?_, ?_, by decide⟩
  · intro h fs files name b
    induction files generalizing fs with
    | nil =>
      intro hm
      simp [processFilesLoop] at hm
    | cons f rest ih =>
      intro hm
      cases hc : fs f.tempPath with
      | none =>
        rw [processFilesLoop_cons_none h fs f rest hc] at hm
        simp at hm
      | some c =>
        cases hck : checkMagicBytes f.mimetype c with
        | true =>
          rw [processFilesLoop_cons_ok h fs f rest c hc hck] at hm ⊢
          simp only [List.mem_cons] at hm ⊢
          cases hm with
          | inl h1 => exact absurd h1 (by simp)
          | inr h2 =>
            cases h2 with
            | inl h1 =>
              injection h1 with hn _
              exact Or.inl (by rw [hn])
            | inr h3 =>
              cases h3 with
              | inl h1 => exact absurd h1 (by simp)
              | inr h1 => exact Or.inr (Or.inr (Or.inr (ih _ h1)))
        | false =>
          rw [processFilesLoop_cons_fail h fs f rest c hc hck] at hm ⊢
          simp only [List.mem_cons, List.not_mem_nil, or_false] at hm ⊢
          cases hm with
          | inl h1 => exact absurd h1 (by simp)
          | inr h1 =>
            injection h1 with hn _
            exact Or.inl (by rw [hn])
  · intro h config f fs hf n
    rw [uploadSingleRun_filter_false h config f fs hf]
    simp

/-- Witness for the amended C3: the counterexample file's magic check
appears in the trace, so the theorem yields that it was hashed. -/
theorem hash_computed_before_content_checks_witness :
    Ev.hashed "a.pdf" ∈ (processFilesLoop cexHash cexFs [cexFile]).2.1 :=
  hash_computed_before_content_checks.1 cexHash cexFs [cexFile] "a.pdf" false
    (by decide)

/-- C4: On every rejection listed by the claim — multer filter error,
per-file size violation, content-validation failure, malware flag for the
single-file route, and any rejection of the batch path including the
aggregate-size violation — the temp artifact of every file of the request is
gone when the request completes. -/
theorem temp_artifacts_removed_on_rejection :
    (∀ (h : List Nat → String) (config : FileTypeConfig) (minGB : Nat)
      (statOk : Bool) (probe : Except String JsNum) (f : FileRec) (fs : Fs),
      ((handleSingleRequest h config minGB statOk probe f fs).2.2 =
          Outcome.multerRejected MulterCode.filterError ∨
        (handleSingleRequest h config minGB statOk probe f fs).2.2 =
          Outcome.multerRejected MulterCode.fileTooLarge ∨
        (handleSingleRequest h config minGB statOk probe f fs).2.2 =
          Outcome.invalidContent ∨
        (handleSingleRequest h config minGB statOk probe f fs).2.2 =
          Outcome.maliciousFile) →
      (handleSingleRequest h config minGB statOk probe f fs).1 f.tempPath =
        none) ∧
    (∀ (h : List Nat → String) (maxTotal : Nat) (files : List FileRec)
      (fs : Fs) (f : FileRec), f ∈ files →
      (wrapMulterBatch h maxTotal files fs).2.2 ≠ Outcome.accepted →
      (wrapMulterBatch h maxTotal files fs).1 f.tempPath = none) := by
  constructor
  · intro h config minGB statOk probe f fs hrej
    by_cases hacc : (uploadSingleRun h config f fs).2.2 = Outcome.accepted
    · by_cases hdisk : checkDiskSpaceMw minGB statOk probe = true
      · by_cases hscan :
          (antivirusScanMw [f] (uploadSingleRun h config f fs).1).2.2 = true
        · exfalso
          simp [handleSingleRequest, hacc, hdisk, hscan] at hrej
        · have hfalse :
              (antivirusScanMw [f] (uploadSingleRun h config f fs).1).2.2 =
                false := by
            cases hb :
              (antivirusScanMw [f] (uploadSingleRun h config f fs).1).2.2
            · rfl
            · exact absurd hb hscan
          simp [handleSingleRequest, hacc, hdisk, hfalse]
          exact antivirusGo_temp [f] _ [f] f (by simp) hfalse
      · exfalso
        have hdf : checkDiskSpaceMw minGB statOk probe = false := by
          cases hb : checkDiskSpaceMw minGB statOk probe
          · rfl
          · exact absurd hb hdisk
        simp [handleSingleRequest, hacc, hdf] at hrej
    · have hsame : handleSingleRequest h config minGB statOk probe f fs =
          uploadSingleRun h config f fs := by
        simp [handleSingleRequest, hacc]
      rw [hsame]
      exact uploadSingleRun_temp h config f fs hacc
  · intro h maxTotal files fs f hf hne
    by_cases hsz : maxTotal ≠ 0 ∧ maxTotal < calculateTotalSize files
    · simp [wrapMulterBatch, hsz.1, hsz.2]
      exact cleanupTempFiles_mem files fs f hf
    · by_cases hloop : (processFilesLoop h fs files).2.2 = true
      · exfalso
        apply hne
        simp [wrapMulterBatch, hsz, hloop]
      · have hl : (processFilesLoop h fs files).2.2 = false := by
          cases hb : (processFilesLoop h fs files).2.2
          · rfl
          · exact absurd hb hloop
        simp [wrapMulterBatch, hsz, hl]
        exact cleanupTempFiles_mem files _ f hf

/-- Witness for C4: a request rejected by the filter leaves no byte at its
temp path. -/
theorem temp_artifacts_removed_on_rejection_witness :
    (handleSingleRequest (fun _ => "h") resumeConfig 1 true
      (Except.ok (some 0))
      { originalname := "a.xyz", mimetype := "application/pdf", size := 4,
        content := [1, 2, 3, 4], tempPath := "uploads/temp/t1" }
      (fun _ => none)).1 "uploads/temp/t1" = none :=
  temp_artifacts_removed_on_rejection.1 (fun _ => "h") resumeConfig 1 true
    (Except.ok (some 0))
    { originalname := "a.xyz", mimetype := "application/pdf", size := 4,
      content := [1, 2, 3, 4], tempPath := "uploads/temp/t1" }
    (fun _ => none) (Or.inl (by decide))

/-- C7: The category table carries the claimed ceilings (resume 5 MiB,
image 2 MiB, audio 10 MiB, document 10 MiB), and a file strictly above its
category's ceiling that passed the filter is rejected as file-too-large
without any hashing event occurring. -/
theorem per_category_size_ceiling :
    (resumeConfig.maxSize = 5 * 1024 * 1024 ∧
      imageConfig.maxSize = 2 * 1024 * 1024 ∧
      audioConfig.maxSize = 10 * 1024 * 1024 ∧
      documentConfig.maxSize = 10 * 1024 * 1024) ∧
    (∀ (h : List Nat → String) (config : FileTypeConfig) (minGB : Nat)
      (statOk : Bool) (probe : Except String JsNum) (f : FileRec) (fs : Fs),
      createFileFilter config f = true →
      config.maxSize < f.size →
      (handleSingleRequest h config minGB statOk probe f fs).2.2 =
          Outcome.multerRejected MulterCode.fileTooLarge ∧
        ∀ n, Ev.hashed n ∉
          (handleSingleRequest h config minGB statOk probe f fs).2.1) := by
  refine ⟨⟨rfl, rfl, rfl, rfl⟩, ?_⟩
  intro h config minGB statOk probe f fs hflt hsz
  have hrun : uploadSingleRun h config f fs =
      (cleanupTempFiles [f]
          (fun p => if p = f.tempPath then some f.content else fs p),
        [Ev.filtered f.originalname true, Ev.cleanedUp],
        .multerRejected .fileTooLarge) := by
    simp [uploadSingleRun, hflt, hsz]
  constructor
  · simp [handleSingleRequest, hrun]
  · intro n
    simp [handleSingleRequest, hrun]

/-- Witness for C7: a 5 MiB + 1 byte resume is rejected as too large. -/
theorem per_category_size_ceiling_witness :
    (handleSingleRequest (fun _ => "h") resumeConfig 1 true
      (Except.ok (some 0))
      { originalname := "cv.pdf", mimetype := "application/pdf",
        size := 5 * 1024 * 1024 + 1, content := [1],
        tempPath := "uploads/temp/t1" }
      (fun _ => none)).2.2 = Outcome.multerRejected MulterCode.fileTooLarge :=
  (per_category_size_ceiling.2 (fun _ => "h") resumeConfig 1 true
    (Except.ok (some 0))
    { originalname := "cv.pdf", mimetype := "application/pdf",
      size := 5 * 1024 * 1024 + 1, content := [1],
      tempPath := "uploads/temp/t1" }
    (fun _ => none) (by decide) (by decide)).1

/-- C8 counterexample: the aggregate guard sits inside a JavaScript
truthiness test, so a caller-supplied ceiling of 0 disables it: this
one-file batch exceeds the 0-byte ceiling yet is accepted and its file
lands in the final resumes directory, refuting the claim as stated. -/
theorem aggregate_size_guard_zero_ceiling_counterexample :
    0 < calculateTotalSize [batchPdfFile] ∧
    (wrapMulterBatch cexHash 0 [batchPdfFile] batchPdfFs).2.2 =
      Outcome.accepted ∧
    (wrapMulterBatch cexHash 0 [batchPdfFile] batchPdfFs).1
      "uploads/resumes/h.pdf" = some [0x25, 0x50, 0x44, 0x46] := by
  refine ⟨?_, ?_, ?_⟩ <;> decide

/-- C8 (amended): for every nonzero caller-supplied ceiling, a batch whose
summed size exceeds it is rejected whole: every temp file of the batch is
removed, no other path of the store changes (so nothing was added to any
final directory), and no move event occurs; a ceiling of zero disables the
aggregate guard. -/
theorem aggregate_size_guard_batch_atomicity
    (h : List Nat → String) (maxTotal : Nat) (files : List FileRec) (fs : Fs)
    (hnz : maxTotal ≠ 0)
    (hsz : maxTotal < calculateTotalSize files) :
    (wrapMulterBatch h maxTotal files fs).2.2 = Outcome.totalSizeRejected ∧
    (∀ f ∈ files, (wrapMulterBatch h maxTotal files fs).1 f.tempPath = none) ∧
    (∀ p, (∀ f ∈ files, f.tempPath ≠ p) →
      (wrapMulterBatch h maxTotal files fs).1 p = fs p) ∧
    (∀ n, Ev.moved n ∉ (wrapMulterBatch h maxTotal files fs).2.1) := by
  refine ⟨?_, ?_, ?_, ?_⟩
  · simp [wrapMulterBatch, hnz, hsz]
  · intro f hf
    simp [wrapMulterBatch, hnz, hsz]
    exact cleanupTempFiles_mem files fs f hf
  · intro p hp
    simp [wrapMulterBatch, hnz, hsz]
    have hany : files.any (fun g => g.tempPath == p) = false := by
      rw [List.any_eq_false]
      intro g hg
      simpa using hp g hg
    simp [cleanupTempFiles, hany]
  · intro n
    simp [wrapMulterBatch, hnz, hsz]

/-- Witness for the amended C8: a one-file batch of 5 bytes against a
nonzero 1-byte ceiling is rejected whole. -/
theorem aggregate_size_guard_batch_atomicity_witness :
    (wrapMulterBatch (fun _ => "h") 1
      [⟨"a.pdf", "application/pdf", 5, [1], "uploads/temp/t1"⟩]
      (fun _ => none)).2.2 = Outcome.totalSizeRejected :=
  (aggregate_size_guard_batch_atomicity (fun _ => "h") 1
    [⟨"a.pdf", "application/pdf", 5, [1], "uploads/temp/t1"⟩]
    (fun _ => none) (by decide) (by decide)).1

end Intelcobro
